import Mathlib

/-!
Shallow embedding of the ulauncher media-controller extension
(`src/data_classes/data_classes.py`, `src/audio_controller/audio_controller.py`,
`src/event_listeners/iteraction_listener.py`) together with verification of
the specification's claims about it.

Modelling conventions:
* Python enums become Lean inductives keeping the Python names; enum `.value`
  strings become explicit `value` functions.
* Side-effecting methods are modelled by pure functions that return the list
  of external commands they issue (each command is the argv list handed to
  `subprocess.run`), or that act on an explicit filesystem/observation state.
* Python's substring operator `x in s` is modelled by `strContains`, a direct
  left-to-right scan, and related to the abstract infix relation `<:+:`.
* Python machine integers are modelled by `Int` (Python ints are unbounded,
  so no wrap-around is involved anywhere in this code).
-/

set_option maxRecDepth 4096

/-! ## Data model (`src/data_classes/data_classes.py`) -/

/-- `MediaPlaybackState` enum: playback status of the player. -/
inductive MediaPlaybackState where
  | PLAYING
  | PAUSED
  | ERROR
  | NO_PLAYER
deriving DecidableEq, Repr

/-- `ShuffleState` enum: shuffle status of the player. -/
inductive ShuffleState where
  | ON
  | OFF
  | UNAVAILABLE
deriving DecidableEq, Repr

/-- `RepeatState` enum: loop status of the player. -/
inductive RepeatState where
  | OFF
  | PLAYLIST
  | TRACK
  | UNAVAILABLE
deriving DecidableEq, Repr

/-- The `.value` string of each `RepeatState` member
(`OFF = "None"`, `PLAYLIST = "Playlist"`, `TRACK = "Track"`,
`UNAVAILABLE = "Unavailable"`). -/
def RepeatState.value : RepeatState → String
  | .OFF => "None"
  | .PLAYLIST => "Playlist"
  | .TRACK => "Track"
  | .UNAVAILABLE => "Unavailable"

/-- `RepeatState.next`: `order = [OFF, PLAYLIST, TRACK]`; `UNAVAILABLE` maps to
itself; otherwise `order[(order.index(self) + 1) % len(order)]`. -/
def RepeatState.next (s : RepeatState) : RepeatState :=
  let order : List RepeatState := [.OFF, .PLAYLIST, .TRACK]
  if s = RepeatState.UNAVAILABLE then
    RepeatState.UNAVAILABLE
  else
    order.get ⟨(order.indexOf s + 1) % order.length, Nat.mod_lt _ (by decide)⟩

/-- `PlayerStatus` dataclass: aggregate of the three parsed states. -/
structure PlayerStatus where
  playback_state : MediaPlaybackState
  shuffle_state : ShuffleState
  repeat_state : RepeatState
deriving DecidableEq, Repr

/-- `CurrentMedia` dataclass: metadata of the currently playing media. -/
structure CurrentMedia where
  thumbnail_path : String
  artist : String
  title : String
  player : String
  album : Option String
  position : Option Int
deriving DecidableEq, Repr

/-- `Actions` enum (only the members the modelled code paths use). -/
inductive Actions where
  | PLAYPAUSE
  | NEXT
  | PREV
  | MUTE
  | SHUFFLE
  | REPEAT
  | SET_VOL
  | JUMP
  | PLAYER_SELECT_MENU
  | SELECT_PLAYER
deriving DecidableEq, Repr

/-! ## Python's substring operator -/

/-- Scan `hay` left to right for an occurrence of `pat` (model of CPython's
substring search used by `pat in hay`, result-equivalent to the naive scan). -/
def substrAux (pat : List Char) : List Char → Bool
  | [] => pat.isEmpty
  | c :: cs => pat.isPrefixOf (c :: cs) || substrAux pat cs

/-- Python's `needle in hay` on strings. -/
def strContains (hay needle : String) : Bool :=
  substrAux needle.toList hay.toList

/-- The scan `substrAux` decides the abstract infix relation. -/
theorem substrAux_eq_true_iff (pat s : List Char) :
    substrAux pat s = true ↔ pat <:+: s := by
  induction s with
  | nil =>
    simp [substrAux, List.isEmpty_iff, List.infix_nil]
  | cons c cs ih =>
    simp [substrAux, List.infix_cons_iff, ih]

/-- `strContains` decides the abstract infix relation on the underlying
character lists. -/
theorem strContains_iff (hay needle : String) :
    strContains hay needle = true ↔ needle.toList <:+: hay.toList :=
  substrAux_eq_true_iff _ _

/-! ## State parser (`Parser` in `src/audio_controller/audio_controller.py`) -/

/-- `Parser.parse_media_state`: ordered substring checks on the raw
`playerctl status` output. -/
def parse_media_state (player_status : String) : MediaPlaybackState :=
  if strContains player_status "No players found" then
    MediaPlaybackState.NO_PLAYER
  else if strContains player_status "Playing" then
    MediaPlaybackState.PLAYING
  else if strContains player_status "Paused" then
    MediaPlaybackState.PAUSED
  else
    MediaPlaybackState.ERROR

/-- `Parser.parse_shuffle_state`: ordered substring checks on the raw
`playerctl shuffle` output. -/
def parse_shuffle_state (shuffle_status : String) : ShuffleState :=
  if strContains shuffle_status "On" then
    ShuffleState.ON
  else if strContains shuffle_status "Off" then
    ShuffleState.OFF
  else
    ShuffleState.UNAVAILABLE

/-- `Parser.parse_loop_state`: ordered substring checks on the raw
`playerctl loop` output. -/
def parse_loop_state (loop_status : String) : RepeatState :=
  if strContains loop_status "Track" then
    RepeatState.TRACK
  else if strContains loop_status "Playlist" then
    RepeatState.PLAYLIST
  else if strContains loop_status "None" then
    RepeatState.OFF
  else
    RepeatState.UNAVAILABLE

/-- C7: parsing yields `NO_PLAYER` whenever the raw text contains
"No players found", regardless of any other substrings present; otherwise
`PLAYING` if it contains "Playing"; otherwise `PAUSED` if it contains
"Paused"; otherwise `ERROR` — precedence `NO_PLAYER > PLAYING > PAUSED >
ERROR`. -/
theorem parse_media_state_precedence (s : String) :
    ("No players found".toList <:+: s.toList →
        parse_media_state s = MediaPlaybackState.NO_PLAYER)
    ∧ (¬ "No players found".toList <:+: s.toList →
        "Playing".toList <:+: s.toList →
        parse_media_state s = MediaPlaybackState.PLAYING)
    ∧ (¬ "No players found".toList <:+: s.toList →
        ¬ "Playing".toList <:+: s.toList →
        "Paused".toList <:+: s.toList →
        parse_media_state s = MediaPlaybackState.PAUSED)
    ∧ (¬ "No players found".toList <:+: s.toList →
        ¬ "Playing".toList <:+: s.toList →
        ¬ "Paused".toList <:+: s.toList →
        parse_media_state s = MediaPlaybackState.ERROR) := by
  refine ⟨fun h1 => ?_, fun h1 h2 => ?_, fun h1 h2 h3 => ?_, fun h1 h2 h3 => ?_⟩
  · have b1 : strContains s "No players found" = true := (strContains_iff _ _).mpr h1
    simp [parse_media_state, b1]
  · have b1 : ¬ strContains s "No players found" = true :=
      fun hc => h1 ((strContains_iff _ _).mp hc)
    have b2 : strContains s "Playing" = true := (strContains_iff _ _).mpr h2
    simp [parse_media_state, b1, b2]
  · have b1 : ¬ strContains s "No players found" = true :=
      fun hc => h1 ((strContains_iff _ _).mp hc)
    have b2 : ¬ strContains s "Playing" = true :=
      fun hc => h2 ((strContains_iff _ _).mp hc)
    have b3 : strContains s "Paused" = true := (strContains_iff _ _).mpr h3
    simp [parse_media_state, b1, b2, b3]
  · have b1 : ¬ strContains s "No players found" = true :=
      fun hc => h1 ((strContains_iff _ _).mp hc)
    have b2 : ¬ strContains s "Playing" = true :=
      fun hc => h2 ((strContains_iff _ _).mp hc)
    have b3 : ¬ strContains s "Paused" = true :=
      fun hc => h3 ((strContains_iff _ _).mp hc)
    simp [parse_media_state, b1, b2, b3]

/-- Witness for C7: at the concrete input "Paused Playing No players found",
every hypothesis of the first clause is discharged and the parser returns
`NO_PLAYER` even though "Playing" and "Paused" also occur. -/
theorem parse_media_state_precedence_witness :
    parse_media_state "Paused Playing No players found"
      = MediaPlaybackState.NO_PLAYER :=
  (parse_media_state_precedence "Paused Playing No players found").1
    (by decide)

/-- C8: the `RepeatState` successor function is cyclic over
`[OFF, PLAYLIST, TRACK]` with period 3, and `UNAVAILABLE` is absorbing. -/
theorem repeat_state_next_cyclic :
    RepeatState.OFF.next = RepeatState.PLAYLIST
    ∧ RepeatState.PLAYLIST.next = RepeatState.TRACK
    ∧ RepeatState.TRACK.next = RepeatState.OFF
    ∧ RepeatState.OFF.next.next.next = RepeatState.OFF
    ∧ RepeatState.UNAVAILABLE.next = RepeatState.UNAVAILABLE := by
  decide

/-! ## Media controller commands (`AudioController`) -/

/-- `AudioController.PLAYER`: the default MPRIS controller name. -/
def PLAYER : String := "playerctld"

/-- `AudioController._pc args`: argv of `playerctl -p playerctld <args>`. -/
def pc (args : List String) : List String :=
  ["playerctl", "-p", PLAYER] ++ args

/-- `AudioController.repeat player_status`: the single command it issues
(`playerctl -p playerctld loop <next_state.value>`).  (`repeat` is a Lean
keyword, hence the `_command` suffix.) -/
def repeat_command (player_status : PlayerStatus) : List String :=
  let next_state := player_status.repeat_state.next
  pc ["loop", next_state.value]

/-- Modelled from the spec: the external `playerctl` binary is not part of
this repository.  Per the spec's external-interface contract the
media-control tool accepts `loop <none|playlist|track>` (the casing actually
exchanged with the tool is the one the tool itself prints and the parser
consumes: "None" / "Playlist" / "Track"); any other argument is rejected and
changes no player state (`none` here).  -/
def loop_command_effect (arg : String) : Option RepeatState :=
  if arg = RepeatState.OFF.value then some RepeatState.OFF
  else if arg = RepeatState.PLAYLIST.value then some RepeatState.PLAYLIST
  else if arg = RepeatState.TRACK.value then some RepeatState.TRACK
  else none

/-- C1: `repeat` issues exactly one `loop` command whose argument is the
cyclic successor of the current repeat state; when the current state is not
`UNAVAILABLE` that command sets the loop mode to the successor, and when it
is `UNAVAILABLE` the issued argument ("Unavailable") is not a valid loop
mode, so the command changes no player state (no-op semantics). -/
theorem repeat_command_spec (ps : PlayerStatus) :
    repeat_command ps
      = ["playerctl", "-p", "playerctld", "loop", ps.repeat_state.next.value]
    ∧ (ps.repeat_state ≠ RepeatState.UNAVAILABLE →
        loop_command_effect ps.repeat_state.next.value
          = some ps.repeat_state.next)
    ∧ (ps.repeat_state = RepeatState.UNAVAILABLE →
        loop_command_effect ps.repeat_state.next.value = none) := by
  obtain ⟨pb, sh, rs⟩ := ps
  refine ⟨rfl, ?_, ?_⟩ <;> cases rs <;> simp_all <;> decide

/-- Witness for C1 at concrete player statuses: from `OFF` the issued
argument sets the loop mode to `PLAYLIST`; from `UNAVAILABLE` the issued
argument is rejected by the tool. -/
theorem repeat_command_spec_witness :
    loop_command_effect RepeatState.OFF.next.value = some RepeatState.OFF.next
    ∧ loop_command_effect RepeatState.UNAVAILABLE.next.value = none := by
  constructor
  · exact (repeat_command_spec
      ⟨MediaPlaybackState.PLAYING, ShuffleState.ON, RepeatState.OFF⟩).2.1
      (by decide)
  · exact (repeat_command_spec
      ⟨MediaPlaybackState.PLAYING, ShuffleState.ON,
        RepeatState.UNAVAILABLE⟩).2.2 rfl

/-- `AudioController.set_mute mute`: the single `pactl` command it issues. -/
def set_mute (mute : Bool) : List String :=
  ["pactl", "set-sink-mute", "@DEFAULT_SINK@", if mute then "1" else "0"]

/-- `AudioController.global_volume set_vol`: the sequence of external
commands it issues.  `cleaned_vol = str(max(0, min(set_vol, 100)))`; if that
string is `"0"` it only mutes, otherwise it unmutes and sets the sink
volume. -/
def global_volume (set_vol : Int) : List (List String) :=
  let cleaned_vol : String := toString (max 0 (min set_vol 100))
  if cleaned_vol = "0" then
    [set_mute true]
  else
    [set_mute false,
     ["pactl", "set-sink-volume", "@DEFAULT_SINK@", cleaned_vol ++ "%"]]

/-- Decimal rendering of a natural number up to 100 is `"0"` only at 0. -/
theorem natRepr_eq_zero_iff (k : Fin 101) :
    Nat.repr k.val = "0" ↔ k.val = 0 := by
  revert k
  decide

/-- Decimal rendering of a clamped volume is `"0"` only at 0. -/
theorem toString_vol_ne_zero (n : Int) (h0 : 0 ≤ n) (h100 : n ≤ 100)
    (hne : n ≠ 0) : toString n ≠ "0" := by
  obtain ⟨k, rfl⟩ : ∃ k : Nat, n = (k : Int) :=
    ⟨n.toNat, (Int.toNat_of_nonneg h0).symm⟩
  have hk : k ≤ 100 := by exact_mod_cast h100
  have hkne : k ≠ 0 := by simpa using hne
  have hrepr : toString ((k : Int)) = Nat.repr k := rfl
  rw [hrepr]
  intro hc
  exact hkne ((natRepr_eq_zero_iff ⟨k, Nat.lt_succ_of_le hk⟩).mp hc)

/-- C4: `global_volume` clamps its argument to `[0, 100]`; a clamped value
of 0 produces exactly one command, a mute; a nonzero clamped value produces
exactly two commands, an unmute followed by setting the sink volume to the
clamped percentage.  In particular `global_volume 0` is a lone mute call and
`global_volume 150` is an unmute followed by a set-volume-to-100% call. -/
theorem global_volume_spec (set_vol : Int) :
    (0 ≤ max 0 (min set_vol 100) ∧ max 0 (min set_vol 100) ≤ 100)
    ∧ (max 0 (min set_vol 100) = 0 →
        global_volume set_vol = [set_mute true])
    ∧ (max 0 (min set_vol 100) ≠ 0 →
        global_volume set_vol =
          [set_mute false,
           ["pactl", "set-sink-volume", "@DEFAULT_SINK@",
            toString (max 0 (min set_vol 100)) ++ "%"]])
    ∧ global_volume 0 = [set_mute true]
    ∧ global_volume 150 =
        [set_mute false,
         ["pactl", "set-sink-volume", "@DEFAULT_SINK@", "100%"]] := by
  refine ⟨⟨le_max_left 0 _, ?_⟩, fun h0 => ?_, fun hne => ?_, by decide, by decide⟩
  · exact max_le (by norm_num) (min_le_right _ _)
  · simp [global_volume, h0]
    decide
  · have hb : toString (max 0 (min set_vol 100)) ≠ "0" :=
      toString_vol_ne_zero _ (le_max_left 0 _)
        (max_le (by norm_num) (min_le_right _ _)) hne
    simp [global_volume, hb]

/-- Witness for C4: at `set_vol = -3` the clamp is 0 and only a mute is
issued; at `set_vol = 42` the clamp is 42 and an unmute plus a 42% volume
command are issued. -/
theorem global_volume_spec_witness :
    global_volume (-3) = [set_mute true]
    ∧ global_volume 42 =
        [set_mute false,
         ["pactl", "set-sink-volume", "@DEFAULT_SINK@",
          toString (max 0 (min (42 : Int) 100)) ++ "%"]] :=
  ⟨(global_volume_spec (-3)).2.1 (by decide),
   (global_volume_spec 42).2.2.1 (by decide)⟩

/-! ## Thumbnail cache key (`AudioController.get_media_thumbnail`) -/

/-- UTF-8 encoding of a single character, as a list of byte values. -/
def utf8Char (c : Char) : List Nat :=
  let n := c.toNat
  if n < 128 then [n]
  else if n < 2048 then [192 + n / 64, 128 + n % 64]
  else if n < 65536 then
    [224 + n / 4096, 128 + (n / 64) % 64, 128 + n % 64]
  else
    [240 + n / 262144, 128 + (n / 4096) % 64, 128 + (n / 64) % 64,
     128 + n % 64]

/-- UTF-8 encoding of a string (model of Python's `str.encode()`). -/
def utf8Encode (s : String) : List Nat :=
  s.toList.flatMap utf8Char

/-- The standard base64 alphabet. -/
def b64Alphabet : List Char :=
  "ABCDEFGHIJKLMNOPQRSTUVWXYZabcdefghijklmnopqrstuvwxyz0123456789+/".toList

/-- The base64 digit for a 6-bit value. -/
def b64Digit (n : Nat) : Char := b64Alphabet.getD n 'A'

/-- Standard padded base64 over a byte list (model of `base64.b64encode`). -/
def b64encode : List Nat → String
  | [] => ""
  | [a] =>
    String.mk [b64Digit (a / 4), b64Digit ((a % 4) * 16), '=', '=']
  | [a, b] =>
    String.mk [b64Digit (a / 4), b64Digit ((a % 4) * 16 + b / 16),
               b64Digit ((b % 16) * 4), '=']
  | a :: b :: c :: rest =>
    String.mk [b64Digit (a / 4), b64Digit ((a % 4) * 16 + b / 16),
               b64Digit ((b % 16) * 4 + c / 64), b64Digit (c % 64)]
      ++ b64encode rest

/-- The cache filename stem computed in `AudioController.get_media_thumbnail`:
`base64.b64encode(f"{media.title}-{media.artist}".encode()).decode()`. -/
def thumbnail_file_name (title artist : String) : String :=
  b64encode (utf8Encode (title ++ "-" ++ artist))

example : thumbnail_file_name "x" "x-x" = "eC14LXg=" := by decide
example : thumbnail_file_name "a" "b" = "YS1i" := by decide
example : thumbnail_file_name "b" "a" = "Yi1h" := by decide
example : thumbnail_file_name "Let It Be" "Beatles" = "TGV0IEl0IEJlLUJlYXRsZXM=" := by decide

/-- Counterexample to C3 as stated: with `title = "x"` and
`artist = "x-x"` the two orders produce the same cache key even though
`title ≠ artist`, because `"x" ++ "-" ++ "x-x"` and `"x-x" ++ "-" ++ "x"`
are the same string `"x-x-x"`. -/
theorem thumbnail_key_counterexample :
    thumbnail_file_name "x" "x-x" = thumbnail_file_name "x-x" "x"
    ∧ ("x" : String) ≠ "x-x" := by
  constructor
  · rfl
  · decide

/-- C3 (amended): the thumbnail cache key is a pure function of the pair
(title, artist) — equal pairs always map to the same key; the keys of
`(title, artist)` and `(artist, title)` coincide whenever the dash-joined
strings `title ++ "-" ++ artist` and `artist ++ "-" ++ title` coincide
(which can happen with `title ≠ artist`); and in general order matters:
`key("a", "b") ≠ key("b", "a")`. -/
theorem thumbnail_key_amended :
    (∀ t₁ a₁ t₂ a₂ : String, t₁ = t₂ → a₁ = a₂ →
        thumbnail_file_name t₁ a₁ = thumbnail_file_name t₂ a₂)
    ∧ (∀ t a : String, t ++ "-" ++ a = a ++ "-" ++ t →
        thumbnail_file_name t a = thumbnail_file_name a t)
    ∧ thumbnail_file_name "a" "b" ≠ thumbnail_file_name "b" "a" := by
  refine ⟨?_, ?_, by decide⟩
  · intro t₁ a₁ t₂ a₂ ht ha
    rw [ht, ha]
  · intro t a h
    unfold thumbnail_file_name
    rw [h]

/-- Witness for C3 (amended), applied at `title = "y"`, `artist = "y-y"`:
the dash-joined strings agree, so the keys agree. -/
theorem thumbnail_key_amended_witness :
    thumbnail_file_name "y" "y-y" = thumbnail_file_name "y-y" "y" :=
  thumbnail_key_amended.2.1 "y" "y-y" (by decide)

/-! ## Thumbnail cache eviction (`AudioController.get_media_thumbnail`) -/

/-- A cached thumbnail file on disk: (path, creation time). -/
abbrev ThumbFile := String × Nat

/-- The files left on disk by the eviction step on the lookup-miss path:
`if len(old_thumbnails) > 50: old_thumbnails.sort(key=os.path.getctime);
for icon in old_thumbnails[:35]: os.remove(icon)` — i.e. when more than 50
files exist, the list is sorted by creation time ascending and the first 35
(the oldest) are removed. -/
def evict_old_thumbnails (old_thumbnails : List ThumbFile) : List ThumbFile :=
  if old_thumbnails.length > 50 then
    (old_thumbnails.mergeSort (fun x y => decide (x.2 ≤ y.2))).drop 35
  else old_thumbnails

/-- The files the eviction step deletes (complement of
`evict_old_thumbnails`). -/
def removed_old_thumbnails (old_thumbnails : List ThumbFile) :
    List ThumbFile :=
  if old_thumbnails.length > 50 then
    (old_thumbnails.mergeSort (fun x y => decide (x.2 ≤ y.2))).take 35
  else []

/-- The cache contents after a lookup miss completes: eviction runs first,
then the new entry is created. -/
def cache_after_miss (files : List ThumbFile) (newFile : ThumbFile) :
    List ThumbFile :=
  evict_old_thumbnails files ++ [newFile]

/-- C5: whenever a lookup miss finds more than 50 cached files, the
eviction step deletes exactly the 35 oldest by creation time (every deleted
file is at least as old as every survivor, and every survivor comes from
the original files), so `length - 35` files survive and the cache holds
`length - 35 + 1` files once the new entry is created; in particular,
starting from 51 files, 16 pre-existing files remain plus the new one. -/
theorem thumbnail_eviction_spec (files : List ThumbFile) (newFile : ThumbFile)
    (h : files.length > 50) :
    (evict_old_thumbnails files).length = files.length - 35
    ∧ (∀ x ∈ evict_old_thumbnails files, x ∈ files)
    ∧ (removed_old_thumbnails files).length = 35
    ∧ (∀ r ∈ removed_old_thumbnails files,
        ∀ v ∈ evict_old_thumbnails files, r.2 ≤ v.2)
    ∧ (cache_after_miss files newFile).length = files.length - 35 + 1
    ∧ (files.length = 51 →
        (evict_old_thumbnails files).length = 16
        ∧ (cache_after_miss files newFile).length = 17) := by
  have hsorted :
      (files.mergeSort (fun x y => decide (x.2 ≤ y.2))).Pairwise
        (fun x y => decide (x.2 ≤ y.2)) := by
    apply List.sorted_mergeSort
    · intro a b c hab hbc
      simp only [decide_eq_true_iff] at *
      omega
    · intro a b
      simp only [Bool.or_eq_true, decide_eq_true_iff]
      omega
  have hlen : (evict_old_thumbnails files).length = files.length - 35 := by
    simp [evict_old_thumbnails, h]
  have hcache : (cache_after_miss files newFile).length
      = files.length - 35 + 1 := by
    simp [cache_after_miss, hlen]
  refine ⟨hlen, ?_, ?_, ?_, hcache, ?_⟩
  · intro x hx
    simp only [evict_old_thumbnails, h, if_pos] at hx
    exact List.mem_mergeSort.mp (List.mem_of_mem_drop hx)
  · simp only [removed_old_thumbnails, h, if_pos]
    rw [List.length_take, List.length_mergeSort]
    omega
  · intro r hr v hv
    simp only [removed_old_thumbnails, evict_old_thumbnails, h,
      if_pos] at hr hv
    have hsplit :=
      (List.take_append_drop 35
        (files.mergeSort (fun x y => decide (x.2 ≤ y.2)))).symm
    rw [hsplit] at hsorted
    have hcross := (List.pairwise_append.mp hsorted).2.2
    simpa using hcross r hr v hv
  · intro h51
    rw [hlen, hcache, h51]
    omega

/-- Witness for C5: a concrete cache of 51 files with distinct creation
times; after eviction 16 files survive, 17 with the new entry. -/
theorem thumbnail_eviction_spec_witness :
    (evict_old_thumbnails
      ((List.range 51).map (fun i => (Nat.repr i, i)))).length = 16
    ∧ (cache_after_miss
        ((List.range 51).map (fun i => (Nat.repr i, i)))
        ("new", 100)).length = 17 :=
  (thumbnail_eviction_spec _ ("new", 100) (by simp)).2.2.2.2.2 (by simp)

/-! ## Thumbnail lookup return contract -/

/-- Abstract filesystem state at the time `get_media_thumbnail` validates
its candidate result: which paths exist, which are regular files, and which
of those GdkPixbuf can load as well-formed images (a load exception counts
as `false`).  Download side effects are reflected in this state. -/
structure FileSystem where
  pathExists : String → Bool
  isFile : String → Bool
  pixbufLoads : String → Bool

/-- `AudioController.validate_image`: `false` when the path is not a regular
file or the GdkPixbuf load fails, `true` otherwise. -/
def validate_image (fs : FileSystem) (image_path : String) : Bool :=
  if !(fs.isFile image_path) then false
  else fs.pixbufLoads image_path

/-- `AudioController.media_cover_path`. -/
def media_cover_path : String := "/tmp/ulauncher-media-player/media-thumbnails"

/-- The fixed fallback icon (`default_thumbnail` in
`AudioController.get_media_thumbnail`). -/
def default_thumbnail : String := "images/icon.png"

/-- The cache path `get_media_thumbnail` derives for a media item
(`Path(cover_path, f"{file_name}.png")`). -/
def cached_thumbnail_path (media : CurrentMedia) : String :=
  media_cover_path ++ "/" ++ thumbnail_file_name media.title media.artist
    ++ ".png"

/-- `AudioController.get_media_thumbnail`, modelled as the path it returns
over the abstract filesystem.  Directory creation, eviction and the
synchronous/background downloads mutate only the filesystem, which the model
takes as the state observed at validation time; the returned path is the
cached file (or the `file://`-referenced local file) when it validates as an
image, and the fallback icon otherwise. -/
def get_media_thumbnail (fs : FileSystem) (media : CurrentMedia) : String :=
  let local_filename := cached_thumbnail_path media
  if fs.pathExists local_filename then
    if validate_image fs local_filename then local_filename
    else default_thumbnail
  else
    let local_filename :=
      if media.thumbnail_path.startsWith "file://" then
        media.thumbnail_path.drop 7
      else local_filename
    if validate_image fs local_filename then local_filename
    else default_thumbnail

/-- C6: `get_media_thumbnail` always returns either a path that validates as
a well-formed image or the fixed fallback icon (the model is a total
function, so no exception escapes); in particular, when the cached file for
the key exists but fails image validation (zero-byte/corrupt), the result is
the fallback icon, not the corrupt cached path. -/
theorem get_media_thumbnail_contract (fs : FileSystem) (media : CurrentMedia) :
    (validate_image fs (get_media_thumbnail fs media) = true
      ∨ get_media_thumbnail fs media = default_thumbnail)
    ∧ (fs.pathExists (cached_thumbnail_path media) = true →
        validate_image fs (cached_thumbnail_path media) = false →
        get_media_thumbnail fs media = default_thumbnail) := by
  constructor
  · by_cases h1 : fs.pathExists (cached_thumbnail_path media) = true <;>
      by_cases h2 : validate_image fs (cached_thumbnail_path media) = true <;>
      by_cases h3 :
        validate_image fs (media.thumbnail_path.drop 7) = true <;>
      by_cases h4 : media.thumbnail_path.startsWith "file://" = true <;>
      simp [get_media_thumbnail, h1, h2, h3, h4]
  · intro hex hbad
    simp [get_media_thumbnail, hex, hbad]

/-- Witness for C6: a concrete filesystem in which the cached file for the
key exists but GdkPixbuf rejects it; the returned path is the fallback
icon. -/
theorem get_media_thumbnail_contract_witness :
    get_media_thumbnail
      ⟨fun p => p == cached_thumbnail_path
          ⟨"file:///tmp/art.png", "Artist", "Title", "Player", none, none⟩,
        fun _ => true, fun _ => false⟩
      ⟨"file:///tmp/art.png", "Artist", "Title", "Player", none, none⟩
      = default_thumbnail :=
  (get_media_thumbnail_contract _ _).2 (by simp) (by simp [validate_image])

/-! ## Query parsing (`Query.from_string`) -/

/-- `Query` dataclass. -/
structure Query where
  command : String
  components : List String
deriving DecidableEq, Repr

/-- Helper for `pySplit`: walk the characters keeping the (reversed) current
token in `acc`, emitting a token at each whitespace run boundary. -/
def splitWsAux : List Char → List Char → List String
  | [], acc => if acc.isEmpty then [] else [String.mk acc.reverse]
  | c :: cs, acc =>
    if c.isWhitespace then
      if acc.isEmpty then splitWsAux cs []
      else String.mk acc.reverse :: splitWsAux cs []
    else splitWsAux cs (c :: acc)

/-- Python's `str.split()` with no separator: split on whitespace runs,
discarding empty pieces. -/
def pySplit (s : String) : List String := splitWsAux s.toList []

/-- `Query.from_string`.  The character classes `isalpha`/`isdigit` are
modelled on their ASCII fragment (`Char.isAlpha` / `Char.isDigit`).  Python
raises `ValueError` when the argument has no tokens (unpacking
`command, *components` from an empty list); that is modelled as `none`. -/
def Query.from_string (argument : String) : Option Query :=
  match pySplit argument with
  | [] => none
  | command :: components =>
    if !(command == "") && command.toList.any Char.isAlpha
        && command.toList.any Char.isDigit then
      let alpha := String.mk (command.toList.filter Char.isAlpha)
      let digit := String.mk (command.toList.filter Char.isDigit)
      if !(alpha == "") && !(digit == "") then
        some ⟨alpha, digit :: components⟩
      else some ⟨command, components⟩
    else some ⟨command, components⟩

/-- C10: on an argument with at least one token, `from_string` splits on
whitespace into first token and rest; when the first token contains both a
letter and a digit, the command is the token's letters in order and the
token's digits in order are inserted as the first component. -/
theorem query_from_string_spec (argument command : String)
    (components : List String)
    (h : pySplit argument = command :: components) :
    Query.from_string argument =
      some (if command.toList.any Char.isAlpha
              && command.toList.any Char.isDigit then
        ⟨String.mk (command.toList.filter Char.isAlpha),
         String.mk (command.toList.filter Char.isDigit) :: components⟩
      else ⟨command, components⟩) := by
  unfold Query.from_string
  rw [h]
  by_cases ha : command.toList.any Char.isAlpha = true <;>
    by_cases hd : command.toList.any Char.isDigit = true
  · obtain ⟨ca, hca, hcaP⟩ := List.any_eq_true.mp ha
    obtain ⟨cd, hcd, hcdP⟩ := List.any_eq_true.mp hd
    have pa : ∃ x ∈ command.data, x.isAlpha = true := ⟨ca, hca, hcaP⟩
    have pd : ∃ x ∈ command.data, x.isDigit = true := ⟨cd, hcd, hcdP⟩
    have pne : ¬ command = "" := by
      intro hc
      rw [hc] at hca
      simp at hca
    have palpha :
        ¬ (⟨List.filter Char.isAlpha command.data⟩ : String) = "" := by
      intro hc
      have hfil : command.data.filter Char.isAlpha = [] := by
        simpa [String.ext_iff] using hc
      have := List.filter_eq_nil_iff.mp hfil ca hca
      simp_all
    have pdigit :
        ¬ (⟨List.filter Char.isDigit command.data⟩ : String) = "" := by
      intro hc
      have hfil : command.data.filter Char.isDigit = [] := by
        simpa [String.ext_iff] using hc
      have := List.filter_eq_nil_iff.mp hfil cd hcd
      simp_all
    simp [pa, pd, pne, palpha, pdigit]
  · have nd : ¬ ∃ x ∈ command.data, x.isDigit = true :=
      fun hx => hd (List.any_eq_true.mpr hx)
    simp [nd]
  · have na : ¬ ∃ x ∈ command.data, x.isAlpha = true :=
      fun hx => ha (List.any_eq_true.mpr hx)
    simp [na]
  · have na : ¬ ∃ x ∈ command.data, x.isAlpha = true :=
      fun hx => ha (List.any_eq_true.mpr hx)
    simp [na]

/-- Witness for C10 at the concrete argument "vol50 x": command "vol",
components ["50", "x"]. -/
theorem query_from_string_spec_witness :
    Query.from_string "vol50 x" = some ⟨"vol", ["50", "x"]⟩ := by
  rw [query_from_string_spec "vol50 x" "vol50" ["x"] (by decide)]
  decide

/-! ## Synchronization waiter
(`InteractionListener._wait_for_media_change`) -/

/-- `InteractionListener.MAX_WAIT` (seconds). -/
def MAX_WAIT : Nat := 3

/-- The waiter's poll interval (`time.sleep(0.1)`), in milliseconds. -/
def POLL_INTERVAL_MS : Nat := 100

/-- Number of polls performed before `under_max_wait` turns false, when each
iteration costs one poll interval: 3 s / 100 ms = 30. -/
def MAX_POLLS : Nat := MAX_WAIT * 1000 / POLL_INTERVAL_MS

/-- The PREV-action predicate "a valid numeric position decreased". -/
def position_decreased (previous current : CurrentMedia) : Bool :=
  match previous.position, current.position with
  | some pp, some cp => decide (cp < pp)
  | _, _ => false

/-- `InteractionListener._wait_for_media_change`, with wall-clock time
abstracted to a discrete poll counter: `obs t` is the `CurrentMedia`
observed at the `t`-th poll, `fuel` is the number of polls remaining before
`under_max_wait` turns false, and the returned value is the index of the
poll at which the loop exits (the Python function returns nothing; the exit
tick makes the exit time observable).  Totality of this function models
"returns without raising". -/
def wait_for_media_change (obs : Nat → CurrentMedia)
    (previous_media : CurrentMedia) (action : Actions) :
    Nat → Nat → Nat
  | 0, t => t
  | fuel + 1, t =>
    let current := obs t
    if action = Actions.NEXT ∧ current.title ≠ previous_media.title then t
    else if action = Actions.PREV
        ∧ (current.title ≠ previous_media.title
           ∨ position_decreased previous_media current = true) then t
    else wait_for_media_change obs previous_media action fuel (t + 1)

/-- If the title never changes during the remaining polls, the NEXT-action
waiter consumes all its fuel and exits at the timeout tick. -/
theorem wait_next_timeout (obs : Nat → CurrentMedia)
    (previous_media : CurrentMedia) :
    ∀ (fuel t : Nat),
      (∀ j, t ≤ j → j < t + fuel → (obs j).title = previous_media.title) →
      wait_for_media_change obs previous_media Actions.NEXT fuel t
        = t + fuel := by
  intro fuel
  induction fuel with
  | zero => intro t _; simp [wait_for_media_change]
  | succ n ih =>
    intro t h
    have ht : (obs t).title = previous_media.title :=
      h t le_rfl (by omega)
    simp only [wait_for_media_change, ht]
    have := ih (t + 1) (fun j hj1 hj2 => h j (by omega) (by omega))
    simp only [this]
    simp
    omega

/-- The NEXT-action waiter exits at the first poll whose title differs from
the pre-action title. -/
theorem wait_next_first_change (obs : Nat → CurrentMedia)
    (previous_media : CurrentMedia) :
    ∀ (fuel t k : Nat), t ≤ k → k < t + fuel →
      (obs k).title ≠ previous_media.title →
      (∀ j, t ≤ j → j < k → (obs j).title = previous_media.title) →
      wait_for_media_change obs previous_media Actions.NEXT fuel t = k := by
  intro fuel
  induction fuel with
  | zero => intro t k h1 h2; omega
  | succ n ih =>
    intro t k h1 h2 hk hbefore
    by_cases ht : t = k
    · subst ht
      simp [wait_for_media_change, hk]
    · have htitle : (obs t).title = previous_media.title :=
        hbefore t le_rfl (by omega)
      simp only [wait_for_media_change, htitle]
      have := ih (t + 1) k (by omega) (by omega) hk
        (fun j hj1 hj2 => hbefore j (by omega) hj2)
      simp only [this]
      simp

/-- C9: for a NEXT action the waiter, polling at the fixed interval, exits
before the timeout at the very first poll at which the observed title
differs from the pre-action title; if the title never differs during the
timeout window it exits exactly at the timeout tick.  The model is a total
function, so the loop always returns (timeout is not an error). -/
theorem wait_for_media_change_next_spec (obs : Nat → CurrentMedia)
    (previous_media : CurrentMedia) :
    (∀ k, k < MAX_POLLS → (obs k).title ≠ previous_media.title →
      (∀ j, j < k → (obs j).title = previous_media.title) →
      wait_for_media_change obs previous_media Actions.NEXT MAX_POLLS 0 = k
        ∧ k < MAX_POLLS)
    ∧ ((∀ k, k < MAX_POLLS → (obs k).title = previous_media.title) →
      wait_for_media_change obs previous_media Actions.NEXT MAX_POLLS 0
        = MAX_POLLS) := by
  constructor
  · intro k hk hchange hbefore
    refine ⟨?_, hk⟩
    exact wait_next_first_change obs previous_media MAX_POLLS 0 k
      (Nat.zero_le k) (by omega) hchange
      (fun j _ hj2 => hbefore j hj2)
  · intro hnone
    have := wait_next_timeout obs previous_media MAX_POLLS 0
      (fun j _ hj => hnone j (by omega))
    simpa using this

/-- Witness for C9: a concrete observation stream whose title changes at the
third poll (index 2); the waiter exits exactly there, before the timeout. -/
theorem wait_for_media_change_next_spec_witness :
    wait_for_media_change
      (fun t => if t < 2 then ⟨"", "a", "t1", "p", none, none⟩
                else ⟨"", "a", "t2", "p", none, none⟩)
      ⟨"", "a", "t1", "p", none, none⟩ Actions.NEXT MAX_POLLS 0 = 2
    ∧ (2 : Nat) < MAX_POLLS :=
  (wait_for_media_change_next_spec
      (fun t => if t < 2 then ⟨"", "a", "t1", "p", none, none⟩
                else ⟨"", "a", "t2", "p", none, none⟩)
      ⟨"", "a", "t1", "p", none, none⟩).1 2 (by decide) (by decide)
    (by decide)

/-! ## Metadata field extraction (`Parser.extract_regex_item` and
`AudioController.get_current_media`) -/

/-- The character class a regex `.` matches: anything but a newline. -/
def notNl (ch : Char) : Bool := ch ≠ '\n'

/-- If `pat` is a prefix of `s`, the remainder of `s` after it. -/
def dropLit : List Char → List Char → Option (List Char)
  | [], s => some s
  | _ :: _, [] => none
  | p :: ps, c :: cs => if p = c then dropLit ps cs else none

/-- Model of `re.search(rf"{item}:(.+)", search_str)` for a literal `item`
(every item passed in this code is alphanumeric, so the interpolated pattern
is a literal followed by `(.+)`): scan left to right for the first position
where the literal `pat` (= `item ++ ":"`) matches and at least one
non-newline character follows; the captured group is the maximal run of
non-newline characters after it.  When the literal matches but `(.+)`
cannot (end of string or a newline right after the colon), the regex engine
moves on to the next start position, exactly as the scan does. -/
def reSearchCapture (pat : List Char) : List Char → Option (List Char)
  | [] => none
  | c :: cs =>
    match dropLit pat (c :: cs) with
    | some rem =>
      if (rem.takeWhile notNl).isEmpty then reSearchCapture pat cs
      else some (rem.takeWhile notNl)
    | none => reSearchCapture pat cs

/-- Unfolding equation of `reSearchCapture` on a non-empty text. -/
theorem reSearchCapture_cons (pat : List Char) (c : Char) (cs : List Char) :
    reSearchCapture pat (c :: cs) =
      match dropLit pat (c :: cs) with
      | some rem =>
        if (rem.takeWhile notNl).isEmpty then reSearchCapture pat cs
        else some (rem.takeWhile notNl)
      | none => reSearchCapture pat cs := rfl

/-- The capture `(.+)` would produce at start position `i` of `s`. -/
def captureAt (pat s : List Char) (i : Nat) : List Char :=
  ((s.drop i).drop pat.length).takeWhile notNl

/-- The regex `pat(.+)` matches at start position `i` of `s`: the literal is
present there and the capture is non-empty. -/
def matchesAt (pat s : List Char) (i : Nat) : Prop :=
  pat <+: s.drop i ∧ captureAt pat s i ≠ []

instance (pat s : List Char) (i : Nat) : Decidable (matchesAt pat s i) := by
  unfold matchesAt
  infer_instance

/-- `dropLit` succeeds exactly on prefixes, returning the remainder. -/
theorem dropLit_eq_some_iff : ∀ (pat s rem : List Char),
    dropLit pat s = some rem ↔ pat <+: s ∧ rem = s.drop pat.length := by
  intro pat
  induction pat with
  | nil =>
    intro s rem
    simp [dropLit, eq_comm]
  | cons p ps ih =>
    intro s rem
    cases s with
    | nil => simp [dropLit]
    | cons c cs =>
      by_cases hpc : p = c
      · subst hpc
        simp [dropLit, ih, List.cons_prefix_cons]
      · simp [dropLit, hpc, List.cons_prefix_cons]

/-- `dropLit` fails exactly on non-prefixes. -/
theorem dropLit_eq_none_iff (pat s : List Char) :
    dropLit pat s = none ↔ ¬ pat <+: s := by
  constructor
  · intro h hp
    have := (dropLit_eq_some_iff pat s (s.drop pat.length)).mpr ⟨hp, rfl⟩
    rw [h] at this
    cases this
  · intro hp
    cases hd : dropLit pat s with
    | none => rfl
    | some rem =>
      exact absurd ((dropLit_eq_some_iff pat s rem).mp hd).1 hp

/-- Shifting the start position by one steps past the head of the text. -/
theorem captureAt_cons (pat : List Char) (c : Char) (cs : List Char)
    (i : Nat) : captureAt pat (c :: cs) (i + 1) = captureAt pat cs i := by
  simp [captureAt]

/-- Shifting the start position by one steps past the head of the text. -/
theorem matchesAt_cons (pat : List Char) (c : Char) (cs : List Char)
    (i : Nat) : matchesAt pat (c :: cs) (i + 1) ↔ matchesAt pat cs i := by
  simp [matchesAt, captureAt_cons]

/-- The regex never matches in the empty text. -/
theorem not_matchesAt_nil (pat : List Char) (i : Nat) :
    ¬ matchesAt pat [] i := by
  simp [matchesAt, captureAt]

/-- When position 0 does not match, first matches of `c :: cs` and of `cs`
correspond by shifting the position. -/
theorem exists_first_match_cons (pat : List Char) (c : Char)
    (cs v : List Char) (h0 : ¬ matchesAt pat (c :: cs) 0) :
    (∃ i, matchesAt pat (c :: cs) i ∧ v = captureAt pat (c :: cs) i
        ∧ ∀ j, j < i → ¬ matchesAt pat (c :: cs) j)
    ↔ (∃ i, matchesAt pat cs i ∧ v = captureAt pat cs i
        ∧ ∀ j, j < i → ¬ matchesAt pat cs j) := by
  constructor
  · rintro ⟨i, hm, hv, hmin⟩
    cases i with
    | zero => exact absurd hm h0
    | succ n =>
      refine ⟨n, (matchesAt_cons _ _ _ _).mp hm,
        by rwa [captureAt_cons] at hv, ?_⟩
      intro j hj hmj
      exact hmin (j + 1) (by omega) ((matchesAt_cons _ _ _ _).mpr hmj)
  · rintro ⟨i, hm, hv, hmin⟩
    refine ⟨i + 1, (matchesAt_cons _ _ _ _).mpr hm,
      by rwa [captureAt_cons], ?_⟩
    intro j hj
    cases j with
    | zero => exact h0
    | succ m =>
      rw [matchesAt_cons]
      exact hmin m (by omega)

/-- Characterization of the scan: it returns `some v` exactly when some
position matches, `v` is the capture at the leftmost matching position, and
no earlier position matches. -/
theorem reSearchCapture_eq_some_iff (pat : List Char) :
    ∀ (s v : List Char),
      reSearchCapture pat s = some v ↔
        ∃ i, matchesAt pat s i ∧ v = captureAt pat s i
          ∧ ∀ j, j < i → ¬ matchesAt pat s j := by
  intro s
  induction s with
  | nil =>
    intro v
    simp only [reSearchCapture]
    constructor
    · intro h
      cases h
    · rintro ⟨i, hm, _, _⟩
      exact absurd hm (not_matchesAt_nil pat i)
  | cons c cs ih =>
    intro v
    cases hd : dropLit pat (c :: cs) with
    | none =>
      have hnp : ¬ pat <+: (c :: cs) := (dropLit_eq_none_iff _ _).mp hd
      have h0 : ¬ matchesAt pat (c :: cs) 0 := fun hm => hnp hm.1
      rw [reSearchCapture_cons, hd, ih v,
        exists_first_match_cons pat c cs v h0]
    | some rem =>
      obtain ⟨hp, hrem⟩ := (dropLit_eq_some_iff _ _ _).mp hd
      have hcap0 : captureAt pat (c :: cs) 0 = rem.takeWhile notNl := by
        simp [captureAt, hrem]
      by_cases hemp : (rem.takeWhile notNl).isEmpty = true
      · have h0 : ¬ matchesAt pat (c :: cs) 0 := by
          intro hm
          exact hm.2 (by rw [hcap0]; exact List.isEmpty_iff.mp hemp)
        rw [reSearchCapture_cons, hd]
        simp only [hemp, if_true]
        rw [ih v, exists_first_match_cons pat c cs v h0]
      · have h0 : matchesAt pat (c :: cs) 0 := by
          refine ⟨hp, ?_⟩
          rw [hcap0]
          intro hnil
          rw [hnil] at hemp
          simp at hemp
        rw [reSearchCapture_cons, hd]
        simp only [hemp, if_false, Bool.false_eq_true]
        constructor
        · intro hv
          refine ⟨0, h0, ?_, fun j hj => by omega⟩
          rw [hcap0]
          exact (Option.some.inj hv).symm
        · rintro ⟨i, hm, hv, hmin⟩
          have hi : i = 0 := by
            by_contra hine
            exact hmin 0 (by omega) h0
          subst hi
          rw [hv, hcap0]

/-- Characterization of the scan's failure: no position matches. -/
theorem reSearchCapture_eq_none_iff (pat : List Char) :
    ∀ s : List Char,
      reSearchCapture pat s = none ↔ ∀ i, ¬ matchesAt pat s i := by
  intro s
  cases hr : reSearchCapture pat s with
  | some v =>
    simp only [reduceCtorEq, false_iff]
    obtain ⟨i, hm, _, _⟩ := (reSearchCapture_eq_some_iff pat s v).mp hr
    intro hall
    exact hall i hm
  | none =>
    simp only [true_iff]
    intro i hm
    have hex : ∃ k, matchesAt pat s k := ⟨i, hm⟩
    have hsome := (reSearchCapture_eq_some_iff pat s
        (captureAt pat s (Nat.find hex))).mpr
      ⟨Nat.find hex, Nat.find_spec hex, rfl,
        fun j hj => Nat.find_min hex hj⟩
    rw [hr] at hsome
    cases hsome

/-- Python's `str.capitalize()` (ASCII model): first character uppercased,
the rest lowercased. -/
def pyCapitalize (s : String) : String :=
  match s.toList with
  | [] => ""
  | c :: cs => String.mk (c.toUpper :: cs.map Char.toLower)

/-- `Parser.extract_regex_item`: regex search for `item:(.+)`; on failure
return `""` when `ok_if_empty`, otherwise raise the field-not-found
`ValueError` (modelled as `Except.error`). -/
def extract_regex_item (item : String) (search_str : String)
    (ok_if_empty : Bool) : Except String String :=
  match reSearchCapture (item.toList ++ [':']) search_str.toList with
  | none =>
    if ok_if_empty then Except.ok ""
    else Except.error ("Could not find " ++ item ++ " in result")
  | some cap => Except.ok (String.mk cap)

/-- Model of Python's `int(str)` on the strings this code feeds it (an
optional leading minus sign followed by decimal digits; `playerctl`'s
`{{position}}` template emits microseconds in exactly this shape). -/
def pyInt (s : String) : Option Int :=
  match s.toList with
  | '-' :: ds =>
    if !ds.isEmpty && ds.all Char.isDigit then
      some (-(Int.ofNat (ds.foldl (fun n c => n * 10 + (c.toNat - 48)) 0)))
    else none
  | ds =>
    if !ds.isEmpty && ds.all Char.isDigit then
      some (Int.ofNat (ds.foldl (fun n c => n * 10 + (c.toNat - 48)) 0))
    else none

/-- `AudioController.get_current_media`, taking the text returned by the
single metadata query (the effect boundary) and parsing the six fields in
source order.  A required field that cannot be extracted aborts the whole
fetch with the field-not-found error (in Python the `ValueError`
propagates); the player name is capitalized for display. -/
def get_current_media (result : String) : Except String CurrentMedia := do
  let artUrl ← extract_regex_item "artUrl" result false
  let artist ← extract_regex_item "artist" result false
  let title ← extract_regex_item "title" result false
  let player ← extract_regex_item "playerName" result false
  let album ← extract_regex_item "album" result true
  let position ← extract_regex_item "position" result true
  let posNum ←
    if position = "" then Except.ok (none : Option Int)
    else
      match pyInt position with
      | some n => Except.ok (some n)
      | none => Except.error ("invalid literal for int(): " ++ position)
  Except.ok
    { thumbnail_path := artUrl, artist := artist, title := title,
      player := pyCapitalize player, album := some album,
      position := posNum }

/-- The lines of a character list, split at newlines. -/
def linesSplit : List Char → List (List Char)
  | [] => [[]]
  | c :: cs =>
    if c = '\n' then [] :: linesSplit cs
    else
      match linesSplit cs with
      | [] => [[c]]
      | l :: ls => (c :: l) :: ls

/-- Spec-side notion used by the original claim: some line of `s` (split at
newlines) begins with `key ++ ":"`. -/
def specLineStartsWith (key s : String) : Bool :=
  (linesSplit s.toList).any
    (fun line => (key.toList ++ [':']).isPrefixOf line)

/-- Counterexample to C2 as stated: in the block "subtitle:abc" no line
begins with "title:", so by the claim the required field "title" should
fail with field-not-found; instead extraction succeeds with "abc", because
the regex search is not anchored to line starts. -/
theorem extract_regex_item_counterexample :
    extract_regex_item "title" "subtitle:abc" false = Except.ok "abc"
    ∧ specLineStartsWith "title" "subtitle:abc" = false := by
  constructor
  · rfl
  · rfl

/-- `Except.ok` feeds the continuation. -/
theorem except_bind_ok {α β ε : Type} (a : α) (f : α → Except ε β) :
    (Except.ok a >>= f) = f a := rfl

/-- `Except.error` short-circuits the continuation. -/
theorem except_bind_error {α β ε : Type} (e : ε) (f : α → Except ε β) :
    ((Except.error e : Except ε α) >>= f) = Except.error e := rfl

/-- C2 (amended): field extraction finds the leftmost occurrence of
`item ++ ":"` followed by at least one non-newline character — anywhere in
the block, not only at the start of a line — and returns the run of
non-newline characters after the colon; when no position matches, it
returns the empty string if the caller marked the field optional and the
field-not-found error otherwise; a missing required field (e.g. title)
makes the whole `get_current_media` fetch fail; and on success the player
name is the capitalization of the extracted `playerName` field. -/
theorem extract_regex_item_amended :
    (∀ (item s : String) (i : Nat),
        matchesAt (item.toList ++ [':']) s.toList i →
        (∀ j, j < i → ¬ matchesAt (item.toList ++ [':']) s.toList j) →
        ∀ b, extract_regex_item item s b
          = Except.ok (String.mk
              (captureAt (item.toList ++ [':']) s.toList i)))
    ∧ (∀ item s : String,
        (∀ i, ¬ matchesAt (item.toList ++ [':']) s.toList i) →
        extract_regex_item item s true = Except.ok ""
        ∧ extract_regex_item item s false
          = Except.error ("Could not find " ++ item ++ " in result"))
    ∧ (∀ s : String,
        (∀ i, ¬ matchesAt ("title".toList ++ [':']) s.toList i) →
        ∀ m, get_current_media s ≠ Except.ok m)
    ∧ (∀ (s : String) (m : CurrentMedia),
        get_current_media s = Except.ok m →
        ∃ raw, extract_regex_item "playerName" s false = Except.ok raw
          ∧ m.player = pyCapitalize raw) := by
  have hok : ∀ (item s : String) (i : Nat),
      matchesAt (item.toList ++ [':']) s.toList i →
      (∀ j, j < i → ¬ matchesAt (item.toList ++ [':']) s.toList j) →
      ∀ b, extract_regex_item item s b
        = Except.ok (String.mk
            (captureAt (item.toList ++ [':']) s.toList i)) := by
    intro item s i hm hmin b
    have hsome : reSearchCapture (item.toList ++ [':']) s.toList
        = some (captureAt (item.toList ++ [':']) s.toList i) :=
      (reSearchCapture_eq_some_iff _ _ _).mpr ⟨i, hm, rfl, hmin⟩
    unfold extract_regex_item
    rw [hsome]
  have hmiss : ∀ item s : String,
      (∀ i, ¬ matchesAt (item.toList ++ [':']) s.toList i) →
      extract_regex_item item s true = Except.ok ""
      ∧ extract_regex_item item s false
        = Except.error ("Could not find " ++ item ++ " in result") := by
    intro item s hni
    have hnone : reSearchCapture (item.toList ++ [':']) s.toList = none :=
      (reSearchCapture_eq_none_iff _ _).mpr hni
    constructor <;> (unfold extract_regex_item; rw [hnone]; rfl)
  refine ⟨hok, hmiss, ?_, ?_⟩
  · intro s hni m hcontra
    have htitle : extract_regex_item "title" s false
        = Except.error ("Could not find " ++ "title" ++ " in result") :=
      (hmiss "title" s hni).2
    cases h1 : extract_regex_item "artUrl" s false with
    | error e =>
      simp [get_current_media, h1, except_bind_error] at hcontra
    | ok v1 =>
      cases h2 : extract_regex_item "artist" s false with
      | error e =>
        simp [get_current_media, h1, h2, except_bind_ok,
          except_bind_error] at hcontra
      | ok v2 =>
        simp [get_current_media, h1, h2, htitle, except_bind_ok,
          except_bind_error] at hcontra
  · intro s m hokm
    cases h1 : extract_regex_item "artUrl" s false with
    | error e =>
      simp [get_current_media, h1, except_bind_error] at hokm
    | ok v1 =>
    cases h2 : extract_regex_item "artist" s false with
    | error e =>
      simp [get_current_media, h1, h2, except_bind_ok,
        except_bind_error] at hokm
    | ok v2 =>
    cases h3 : extract_regex_item "title" s false with
    | error e =>
      simp [get_current_media, h1, h2, h3, except_bind_ok,
        except_bind_error] at hokm
    | ok v3 =>
    cases h4 : extract_regex_item "playerName" s false with
    | error e =>
      simp [get_current_media, h1, h2, h3, h4, except_bind_ok,
        except_bind_error] at hokm
    | ok v4 =>
    cases h5 : extract_regex_item "album" s true with
    | error e =>
      simp [get_current_media, h1, h2, h3, h4, h5, except_bind_ok,
        except_bind_error] at hokm
    | ok v5 =>
    cases h6 : extract_regex_item "position" s true with
    | error e =>
      simp [get_current_media, h1, h2, h3, h4, h5, h6, except_bind_ok,
        except_bind_error] at hokm
    | ok v6 =>
      refine ⟨v4, rfl, ?_⟩
      by_cases hp : v6 = ""
      · simp [get_current_media, h1, h2, h3, h4, h5, h6, hp,
          except_bind_ok, except_bind_error] at hokm
        subst hokm
        rfl
      · cases hi : pyInt v6 with
        | none =>
          simp [get_current_media, h1, h2, h3, h4, h5, h6, hp, hi,
            except_bind_ok, except_bind_error] at hokm
        | some n =>
          simp [get_current_media, h1, h2, h3, h4, h5, h6, hp, hi,
            except_bind_ok, except_bind_error] at hokm
          subst hokm
          rfl

/-- Witness for C2 (amended), applied at item "title" and block
"title:abc": position 0 matches (and is trivially leftmost), so required
extraction succeeds with the capture at position 0. -/
theorem extract_regex_item_amended_witness :
    extract_regex_item "title" "title:abc" false
      = Except.ok (String.mk
          (captureAt ("title".toList ++ [':']) "title:abc".toList 0)) :=
  extract_regex_item_amended.1 "title" "title:abc" 0 (by decide)
    (fun j hj => absurd hj (Nat.not_lt_zero j)) false
